import Mathlib

/-
Verification of the mtc command-line front-end (cmd/mtc/main.go) and the
HTTP assertion server (server/server.go) of the merkle-tree-certificates
repository.  Go code is shallowly embedded: bytes are naturals below 256,
Go byte slices are lists, fallible Go functions return Except, and calls
into the external mtc library (github.com/bwesterb/mtc), the Go standard
library and the filesystem are parameters of the embedded functions.
-/

namespace Mtc

/-- A byte, as stored in a Go byte slice. -/
abbrev Byte := Nat

/-- mtc.Claims as used by the CLI: the five claim families.  Go net.ParseIP
returns nil for an unparsable address and main.go appends the result
unconditionally, so IP entries are Options. -/
structure Claims where
  dns : List String
  dnsWildcard : List String
  ens : List String
  ipv4 : List (Option (List Byte))
  ipv6 : List (Option (List Byte))
deriving DecidableEq, Repr

/-- The TLS subject produced by mtc.NewTLSSubject: a signature scheme code
together with the public key.  Signature schemes are their u16 codes; the Go
zero value 0 means "no scheme". -/
structure TLSSubject where
  scheme : Nat
  pubKey : List Byte
deriving DecidableEq, Repr

/-- mtc.Assertion: claims plus subject.  The CLI only ever builds TLS
subjects (mtc.NewTLSSubject), so the subject is a TLSSubject here. -/
structure Assertion where
  claims : Claims
  subject : TLSSubject
deriving DecidableEq, Repr

/-- ca.QueuedAssertion: an assertion with an optional checksum.  none models
a nil Go slice, some b a non-nil slice b. -/
structure QueuedAssertion where
  assertion : Assertion
  checksum : Option (List Byte)
deriving DecidableEq, Repr

/-- Go encoding/hex fromHexChar: value of one hexadecimal character. -/
def fromHexChar (c : Char) : Option Nat :=
  if '0' ≤ c ∧ c ≤ '9' then some (c.toNat - 48)
  else if 'a' ≤ c ∧ c ≤ 'f' then some (c.toNat - 87)
  else if 'A' ≤ c ∧ c ≤ 'F' then some (c.toNat - 55)
  else none

/-- Go encoding/hex Decode over the character list of the input string:
decodes complete pairs until a bad character or an odd tail; returns the
bytes decoded before the failure, and whether an error was reported. -/
def hexDecodePairs : List Char → List Byte × Bool
  | [] => ([], false)
  | [_] => ([], true)
  | a :: b :: rest =>
    match fromHexChar a, fromHexChar b with
    | some x, some y =>
      let p := hexDecodePairs rest
      ((16 * x + y) :: p.1, p.2)
    | _, _ => ([], true)

/-- Go hex.DecodeString: pair of (decoded bytes, error?). -/
def hexDecodeString (s : String) : List Byte × Bool :=
  hexDecodePairs s.data

/-- The assertion-building flags of main.go assertionFlags, as the CLI
context exposes them: cc.String / cc.StringSlice values, plus the cc.IsSet
booleans that the in-file conflict check of main.go:150-165 consults. -/
structure AssertionFlags where
  dns : List String
  dnsWildcard : List String
  ens : List String
  ip4 : List String
  ip6 : List String
  tlsPem : String
  tlsDer : String
  tlsScheme : String
  checksum : String
  inFile : String
  dnsSet : Bool
  dnsWildcardSet : Bool
  ensSet : Bool
  ip4Set : Bool
  ip6Set : Bool
  tlsDerSet : Bool
  tlsPemSet : Bool
deriving DecidableEq, Repr

/-- All flags absent: the zero values cc returns for unset flags. -/
def noFlags : AssertionFlags :=
  { dns := [], dnsWildcard := [], ens := [], ip4 := [], ip6 := []
    tlsPem := "", tlsDer := "", tlsScheme := "", checksum := "", inFile := ""
    dnsSet := false, dnsWildcardSet := false, ensSet := false
    ip4Set := false, ip6Set := false, tlsDerSet := false, tlsPemSet := false }

/-- An opaque handle for a parsed crypto/x509 public key. -/
abbrev PubKey := Nat

/-- The external collaborators of assertionFromFlagsUnchecked: the
filesystem (os.ReadFile), encoding/pem, crypto/x509, net.ParseIP and the
mtc library functions it calls.  They are opaque parameters of the
embedding; main.go only composes them. -/
structure FlagEnv where
  readFile : String → Except String (List Byte)
  pemDecode : List Byte → Option (List Byte)
  parsePKIX : List Byte → Except String PubKey
  parseIP : String → Option (List Byte)
  schemeFromString : String → Nat
  schemesFor : PubKey → List Nat
  newTLSSubject : Nat → PubKey → Except String TLSSubject
  unmarshalAssertion : List Byte → Except String Assertion

/-- main.go assertionFromFlagsUnchecked (lines 126-268), translated
statement by statement.  Note the checksum block (lines 132-137): when
hex.DecodeString fails the Go code builds an error with fmt.Errorf but
discards it (the return is missing), so the partially decoded checksum is
kept and no error is reported. -/
def assertionFromFlagsUnchecked (env : FlagEnv) (fl : AssertionFlags) :
    Except String QueuedAssertion :=
  let checksum : Option (List Byte) :=
    if fl.checksum = "" then none
    else some (hexDecodeString fl.checksum).1
  if fl.inFile ≠ "" then
    match env.readFile fl.inFile with
    | .error e => .error ("reading assertion " ++ fl.inFile ++ ": " ++ e)
    | .ok assertionBuf =>
      let conflictFlags : List (String × Bool) :=
        [("dns", fl.dnsSet), ("dns-wildcard", fl.dnsWildcardSet),
         ("ens", fl.ensSet), ("ip4", fl.ip4Set), ("ip6", fl.ip6Set),
         ("tls-der", fl.tlsDerSet), ("tls-pem", fl.tlsPemSet)]
      match conflictFlags.find? (fun p => p.2) with
      | some p =>
        .error ("Can\x27t specify --in-file and --" ++ p.1 ++ " together")
      | none =>
        match env.unmarshalAssertion assertionBuf with
        | .error e => .error ("parsing assertion " ++ fl.inFile ++ ": " ++ e)
        | .ok a => .ok { assertion := a, checksum := checksum }
  else
    let cs : Claims :=
      { dns := fl.dns, dnsWildcard := fl.dnsWildcard, ens := fl.ens
        ipv4 := fl.ip4.map env.parseIP, ipv6 := fl.ip6.map env.parseIP }
    if (fl.tlsPem = "" ∧ fl.tlsDer = "") ∨ (fl.tlsPem ≠ "" ∧ fl.tlsDer ≠ "")
    then .error "Expect either tls-pem or tls-der flag"
    else
      let usingPem := fl.tlsPem ≠ ""
      let subjectPath := if fl.tlsPem ≠ "" then fl.tlsPem else fl.tlsDer
      match env.readFile subjectPath with
      | .error e => .error ("reading subject " ++ subjectPath ++ ": " ++ e)
      | .ok subjectBuf =>
        let decoded : Except String (List Byte) :=
          if usingPem then
            match env.pemDecode subjectBuf with
            | none =>
              .error ("reading subject " ++ subjectPath ++
                ": failed to parse PEM block")
            | some blockBytes => .ok blockBytes
          else .ok subjectBuf
        match decoded with
        | .error e => .error e
        | .ok subjectBuf2 =>
          match env.parsePKIX subjectBuf2 with
          | .error e => .error ("Parsing subject " ++ subjectPath ++ ": " ++ e)
          | .ok pub =>
            let schemeRes : Except String Nat :=
              if fl.tlsScheme ≠ "" then
                let scheme := env.schemeFromString fl.tlsScheme
                if scheme = 0 then
                  .error ("Unknown TLS signature scheme: " ++ Nat.repr scheme)
                else .ok scheme
              else
                let schemes := env.schemesFor pub
                if schemes.length = 0 then
                  .error "No matching signature scheme for that public key"
                else if 2 ≤ schemes.length then
                  .error "Specify --tls-scheme with one of the admitted schemes"
                else .ok (schemes.headD 0)
            match schemeRes with
            | .error e => .error e
            | .ok scheme =>
              match env.newTLSSubject scheme pub with
              | .error e => .error ("creating subject: " ++ e)
              | .ok subj =>
                .ok { assertion := { claims := cs, subject := subj }
                      checksum := checksum }

/-- Translation of the tail of assertionFromFlagsUnchecked (main.go:227-267)
from the parse of the subject key file onward, abstracted over the subject
bytes obtained for subjectPath: parse the PKIX key, select the signature
scheme, build the TLS subject. -/
def subjectPipeline (env : FlagEnv) (tlsScheme : String) (cs : Claims)
    (checksum : Option (List Byte)) (subjectPath : String)
    (subjectBuf : List Byte) : Except String QueuedAssertion :=
  match env.parsePKIX subjectBuf with
  | .error e => .error ("Parsing subject " ++ subjectPath ++ ": " ++ e)
  | .ok pub =>
    let schemeRes : Except String Nat :=
      if tlsScheme ≠ "" then
        let scheme := env.schemeFromString tlsScheme
        if scheme = 0 then
          .error ("Unknown TLS signature scheme: " ++ Nat.repr scheme)
        else .ok scheme
      else
        let schemes := env.schemesFor pub
        if schemes.length = 0 then
          .error "No matching signature scheme for that public key"
        else if 2 ≤ schemes.length then
          .error "Specify --tls-scheme with one of the admitted schemes"
        else .ok (schemes.headD 0)
    match schemeRes with
    | .error e => .error e
    | .ok scheme =>
      match env.newTLSSubject scheme pub with
      | .error e => .error ("creating subject: " ++ e)
      | .ok subj =>
        .ok { assertion := { claims := cs, subject := subj }
              checksum := checksum }

/-- The checksum kept by assertionFromFlagsUnchecked (main.go:132-137). -/
def checksumOfFlag (s : String) : Option (List Byte) :=
  if s = "" then none else some (hexDecodeString s).1

/-- The claims assembled from the claim flags (main.go:183-195). -/
def claimsFromFlags (env : FlagEnv) (fl : AssertionFlags) : Claims :=
  { dns := fl.dns, dnsWildcard := fl.dnsWildcard, ens := fl.ens
    ipv4 := fl.ip4.map env.parseIP, ipv6 := fl.ip6.map env.parseIP }

/-- The i-th assertion yielded by handleCaQueue when --debug-vary is set
(main.go:284-291): the copy has its checksum cleared and the DNS claim
"i.example.com" appended (fmt.Sprintf of the loop counter). -/
def variedCopy (qa : QueuedAssertion) (i : Nat) : QueuedAssertion :=
  { qa with
    checksum := none
    assertion := { qa.assertion with
      claims := { qa.assertion.claims with
        dns := qa.assertion.claims.dns ++ [Nat.repr i ++ ".example.com"] } } }

/-- The sequence of assertions that the iterator handleCaQueue passes to
ca.QueueMultiple yields, in order, when every yield succeeds
(main.go:282-297): debug-repeat copies of the queued assertion, each varied
by variedCopy when --debug-vary is set. -/
def caQueueYields (qa : QueuedAssertion) (debugRepeat : Nat)
    (debugVary : Bool) : List QueuedAssertion :=
  (List.range debugRepeat).map (fun i =>
    if debugVary then variedCopy qa i else qa)

/-- The default of the --debug-repeat flag (main.go:821, Value: 1). -/
def debugRepeatDefault : Nat := 1

/-- mtc.HashLen: all tree heads and keys are 32-byte hashes. -/
def HashLen : Nat := 32

/-- The (batch label, tree head) pairs printed by
handleInspectSignedValidityWindow (main.go:496-503) for a decoded window
with the given batch number, a CAParams validity window size w, and the
decoded tree-heads byte string.  The label is computed in Go int
arithmetic: int(batchNumber) + i - int(w) + 1. -/
def inspectWindowHeads (batchNumber w : Nat) (treeHeads : List Byte) :
    List (Int × List Byte) :=
  (List.range w).map (fun (i : Nat) =>
    ((batchNumber : Int) + (i : Int) - (w : Int) + 1,
     (treeHeads.drop (HashLen * i)).take HashLen))

/-- Big-endian value of a byte string, as cryptobyte ReadUint64 reads it. -/
def be64 (l : List Byte) : Nat :=
  l.foldl (fun a b => 256 * a + b) 0

/-- The loop of handleInspectIndex (main.go:521-537) over the input bytes:
while the cryptobyte string is nonempty, read a 32-byte key and two
big-endian u64s (seqno, offset); any short read fails with "truncated".
s.ReadBytes n and s.ReadUint64 succeed exactly when n (resp. 8) bytes
remain, consuming them. -/
def parseIndexLoop (s : List Byte) :
    Except String (List (List Byte × Nat × Nat)) :=
  if hs : s.isEmpty then .ok []
  else if h32 : 32 ≤ s.length then
    let key := s.take 32
    let s1 := s.drop 32
    if h64a : 8 ≤ s1.length then
      let seqno := be64 (s1.take 8)
      let s2 := s1.drop 8
      if h64b : 8 ≤ s2.length then
        let offset := be64 (s2.take 8)
        match parseIndexLoop (s2.drop 8) with
        | .error e => .error e
        | .ok rest => .ok ((key, seqno, offset) :: rest)
      else .error "truncated"
    else .error "truncated"
  else .error "truncated"
termination_by s.length
decreasing_by
  simp only [List.length_drop]
  simp only [List.isEmpty_iff] at hs
  have : s.length ≠ 0 := fun h0 => hs (List.length_eq_zero.mp h0)
  omega

/-- The i-th 48-byte record of an index byte string, split as
handleInspectIndex prints it: 32-byte key, big-endian u64 seqno,
big-endian u64 offset. -/
def indexEntryAt (b : List Byte) (i : Nat) : List Byte × Nat × Nat :=
  ((b.drop (48 * i)).take 32,
   be64 ((b.drop (48 * i + 32)).take 8),
   be64 ((b.drop (48 * i + 40)).take 8))

/-- mtc.CAParams as consulted by handleInspectCert: only the issuer id
takes part in the checks modelled here. -/
structure CAParams where
  issuerId : String
deriving DecidableEq, Repr

/-- mtc.MerkleTreeTrustAnchor: issuer id and batch number. -/
structure MerkleTreeTrustAnchor where
  issuerId : String
  batchNumber : Nat
deriving DecidableEq, Repr

/-- mtc.MerkleTreeProof: trust anchor, leaf index and authentication path. -/
structure MerkleTreeProof where
  anchor : MerkleTreeTrustAnchor
  index : Nat
  path : List Byte
deriving DecidableEq, Repr

/-- mtc.BikeshedCertificate restricted to the Merkle-tree proof variant,
the only one handleInspectCert treats beyond the generic prints. -/
structure BikeshedCertificate where
  assertion : Assertion
  proof : MerkleTreeProof
deriving DecidableEq, Repr

/-- What handleInspectCert prints for a Merkle-tree-proof certificate: the
abridged assertion, the trust anchor fields, the leaf index, the
authentication path, and the recomputed root when CA parameters were
supplied. -/
structure InspectCertOutput (α : Type) where
  abridgedAssertion : α
  anchorIssuerId : String
  anchorBatchNumber : Nat
  leafIndex : Nat
  path : List Byte
  recomputedRoot : Option (List Byte)
deriving DecidableEq, Repr

/-- main.go handleInspectCert (lines 586-658) on a decoded
Merkle-tree-proof certificate.  abridge models Assertion.Abridge and
computeRoot models mtc.Batch.ComputeRootFromAuthenticationPath for the
batch {CA: params, Number: anchor.batchNumber} (both live in the external
mtc library).  paramsArg models inspectGetCAParams: none when the
--ca-params flag is absent (errNoCaParams, silently skipped by line 645),
some (.error e) when the flag is set but reading or parsing fails, and
some (.ok p) when it loads. -/
def handleInspectCert {α : Type} (abridge : Assertion → α)
    (computeRoot : CAParams → Nat → Nat → List Byte → α →
      Except String (List Byte))
    (paramsArg : Option (Except String CAParams))
    (c : BikeshedCertificate) : Except String (InspectCertOutput α) :=
  let aa := abridge c.assertion
  let base : Option (List Byte) → InspectCertOutput α := fun root =>
    { abridgedAssertion := aa
      anchorIssuerId := c.proof.anchor.issuerId
      anchorBatchNumber := c.proof.anchor.batchNumber
      leafIndex := c.proof.index
      path := c.proof.path
      recomputedRoot := root }
  match paramsArg with
  | none => .ok (base none)
  | some (.error e) => .error e
  | some (.ok params) =>
    if c.proof.anchor.issuerId ≠ params.issuerId then
      .error ("IssuerId doesn\x27t match: " ++ params.issuerId ++ " ≠ " ++
        c.proof.anchor.issuerId)
    else
      match computeRoot params c.proof.anchor.batchNumber c.proof.index
          c.proof.path aa with
      | .error e => .error ("computing root: " ++ e)
      | .ok root => .ok (base (some root))

/-- The errors a cli action can return, as distinguished by main
(main.go:933-938): errArgs (main.go:26, returned by handleCaNew on a wrong
argument count after showing help) versus any other error with its
message. -/
inductive CliError where
  | errArgs : CliError
  | other : String → CliError
deriving DecidableEq, Repr

/-- main.go main (lines 933-938): the process exit status and the error
line printed to stdout, given the result of app.Run (none for success). -/
def mainExit (res : Option CliError) : Nat × Option String :=
  match res with
  | none => (0, none)
  | some CliError.errArgs => (1, none)
  | some (CliError.other msg) => (1, some ("error: " ++ msg ++ "\n"))

/-- A concrete assertion used to evaluate the embedded CLI logic. -/
def testAssertion : Assertion :=
  { claims := { dns := ["example.com"], dnsWildcard := [], ens := []
                ipv4 := [], ipv6 := [] }
    subject := { scheme := 2057, pubKey := [1, 2, 3] } }

/-- A concrete environment in which every external call succeeds, used to
evaluate the embedded CLI logic on concrete flag values. -/
def testEnv : FlagEnv :=
  { readFile := fun _ => .ok [0, 1, 2]
    pemDecode := fun b => some b
    parsePKIX := fun _ => .ok 7
    parseIP := fun _ => none
    schemeFromString := fun s => if s = "ed25519" then 2055 else 0
    schemesFor := fun _ => [2055]
    newTLSSubject := fun sch _ => .ok { scheme := sch, pubKey := [9] }
    unmarshalAssertion := fun _ => .ok testAssertion }

/-- A concrete queued assertion used to evaluate the queue loop. -/
def testQueued : QueuedAssertion :=
  { assertion := testAssertion, checksum := some (List.replicate 32 0) }

/-- A concrete Merkle-tree-proof certificate used to evaluate the
inspect-cert logic. -/
def testCert : BikeshedCertificate :=
  { assertion := testAssertion
    proof := { anchor := { issuerId := "acme", batchNumber := 5 }
               index := 2, path := List.replicate 64 7 } }

end Mtc

/-- Decimal value of a digit string, used to invert Nat.repr. -/
def decVal (l : List Char) : Nat :=
  l.foldl (fun a c => 10 * a + (c.toNat - 48)) 0

namespace Server

/-- The JSON shape server.go decodes a request body into (server.go:26-29):
fields Ens and Pem. -/
structure AssertionJSON where
  ens : String
  pem : String
deriving DecidableEq, Repr

/-- The outcome of the first json Decode in CreateAssertion, after the body
was wrapped in http.MaxBytesReader(w, r.Body, 1048576).  These are the
error classes the switch of server.go:85-115 distinguishes; success carries
the decoded value. -/
inductive DecodeOutcome where
  | success : AssertionJSON → DecodeOutcome
  | badJSON : Nat → DecodeOutcome
  | unexpectedEOF : DecodeOutcome
  | typeError : String → Nat → DecodeOutcome
  | unknownField : String → DecodeOutcome
  | emptyBody : DecodeOutcome
  | tooLarge : DecodeOutcome
  | otherError : String → DecodeOutcome
deriving DecidableEq, Repr

/-- The body size limit installed by server.go:74. -/
def maxBytesLimit : Nat := 1048576

/-- The characters before the first semicolon: strings.Split(ct, ";")[0]. -/
def upToSemicolon : List Char → List Char
  | [] => []
  | c :: rest => if c = ';' then [] else c :: upToSemicolon rest

/-- Drop leading and trailing whitespace: strings.TrimSpace. -/
def trimChars (l : List Char) : List Char :=
  ((l.dropWhile Char.isWhitespace).reverse.dropWhile Char.isWhitespace).reverse

/-- Go strings.Split(ct, ";")[0] then strings.TrimSpace then
strings.ToLower, as in server.go:66 (media types are ASCII, so per-char
lowercasing matches strings.ToLower). -/
def mediaTypeOf (ct : String) : String :=
  ⟨(trimChars (upToSemicolon ct.data)).map Char.toLower⟩

/-- What CreateAssertion does with a request: either an early HTTP error
status with its message, or the decoded assertion reaches the
assertion-creation step (temp file plus mtc new-assertion invocation). -/
inductive HandlerResult where
  | errorStatus : Nat → String → HandlerResult
  | proceed : AssertionJSON → HandlerResult
deriving DecidableEq, Repr

/-- The HTTP status of a HandlerResult, none when the handler proceeded. -/
def HandlerResult.status : HandlerResult → Option Nat
  | .errorStatus code _ => some code
  | .proceed _ => none

/-- server.go CreateAssertion (lines 62-124), up to the point where the
request body has been fully vetted: the Content-Type gate, the switch over
the first json Decode outcome, and the second Decode that must hit EOF.
secondIsEOF tells whether the second Decode returned io.EOF. -/
def createAssertion (contentType : String) (dec : DecodeOutcome)
    (secondIsEOF : Bool) : HandlerResult :=
  if contentType ≠ "" ∧ mediaTypeOf contentType ≠ "application/json" then
    .errorStatus 415 "Content-Type header is not application/json"
  else
    match dec with
    | .badJSON off =>
      .errorStatus 400
        ("Request body contains badly-formed JSON (at position " ++
          Nat.repr off ++ ")")
    | .unexpectedEOF =>
      .errorStatus 400 "Request body contains badly-formed JSON"
    | .typeError field off =>
      .errorStatus 400
        ("Request body contains an invalid value for the " ++ field ++
          " field (at position " ++ Nat.repr off ++ ")")
    | .unknownField field =>
      .errorStatus 400 ("Request body contains unknown field " ++ field)
    | .emptyBody =>
      .errorStatus 400 "Request body must not be empty"
    | .tooLarge =>
      .errorStatus 413 "Request body must not be larger than 1MB"
    | .otherError _ =>
      .errorStatus 500 "Internal Server Error"
    | .success p =>
      if secondIsEOF then .proceed p
      else .errorStatus 400 "Request body must only contain a single JSON object"

end Server

/-
Helper lemmas.
-/

theorem toDigitsCore_eq_append (b : Nat) :
    ∀ (fuel n : Nat) (ds : List Char),
      Nat.toDigitsCore b fuel n ds = Nat.toDigitsCore b fuel n [] ++ ds := by
  intro fuel
  induction fuel with
  | zero => intro n ds; simp [Nat.toDigitsCore]
  | succ f ih =>
    intro n ds
    simp only [Nat.toDigitsCore]
    by_cases h : n / b = 0
    · simp [h]
    · simp only [h, if_false]
      rw [ih (n / b) (Nat.digitChar (n % b) :: ds),
        ih (n / b) [Nat.digitChar (n % b)]]
      simp

theorem digitChar_toNat (m : Nat) (h : m < 10) :
    (Nat.digitChar m).toNat = 48 + m := by
  interval_cases m <;> rfl

theorem decVal_toDigitsCore :
    ∀ (fuel n : Nat), n < fuel →
      decVal (Nat.toDigitsCore 10 fuel n []) = n := by
  intro fuel
  induction fuel with
  | zero => intro n h; omega
  | succ f ih =>
    intro n hn
    simp only [Nat.toDigitsCore]
    by_cases h : n / 10 = 0
    · have h10 : n < 10 := by omega
      simp only [h, if_true]
      show decVal [Nat.digitChar (n % 10)] = n
      have hm : n % 10 = n := Nat.mod_eq_of_lt h10
      simp [decVal, List.foldl, hm, digitChar_toNat n h10]
    · simp only [h, if_false]
      rw [toDigitsCore_eq_append 10 f (n / 10) [Nat.digitChar (n % 10)]]
      have hrec : n / 10 < f := by omega
      have hd := ih (n / 10) hrec
      have hdig := digitChar_toNat (n % 10) (by omega)
      simp only [decVal, List.foldl_append] at hd ⊢
      simp only [List.foldl, hd, hdig]
      omega

theorem natRepr_injective : ∀ m n : Nat, Nat.repr m = Nat.repr n → m = n := by
  intro m n h
  have hdata : Nat.toDigits 10 m = Nat.toDigits 10 n := by
    have := congrArg String.data h
    simpa [Nat.repr, List.asString] using this
  have hm := decVal_toDigitsCore (m + 1) m (by omega)
  have hn := decVal_toDigitsCore (n + 1) n (by omega)
  simp only [Nat.toDigits] at hdata
  rw [hdata] at hm
  omega

theorem strAppendRightCancel (s1 s2 t : String) (h : s1 ++ t = s2 ++ t) :
    s1 = s2 := by
  have hd := congrArg String.data h
  simp only [String.data_append] at hd
  exact String.ext (List.append_cancel_right hd)

theorem reprSuffix_inj (i j : Nat) (t : String)
    (h : Nat.repr i ++ t = Nat.repr j ++ t) : i = j :=
  natRepr_injective i j (strAppendRightCancel _ _ _ h)

namespace Mtc

theorem aFFU_route (env : FlagEnv) (fl : AssertionFlags)
    (h0 : fl.inFile = "") :
    (((fl.tlsPem = "" ∧ fl.tlsDer = "") ∨ (fl.tlsPem ≠ "" ∧ fl.tlsDer ≠ "")) →
       assertionFromFlagsUnchecked env fl
         = .error "Expect either tls-pem or tls-der flag")
    ∧ (fl.tlsPem ≠ "" → fl.tlsDer = "" →
       (∀ e, env.readFile fl.tlsPem = .error e →
          assertionFromFlagsUnchecked env fl
            = .error ("reading subject " ++ fl.tlsPem ++ ": " ++ e))
       ∧ (∀ buf, env.readFile fl.tlsPem = .ok buf →
            env.pemDecode buf = none →
            assertionFromFlagsUnchecked env fl
              = .error ("reading subject " ++ fl.tlsPem ++
                  ": failed to parse PEM block"))
       ∧ (∀ buf blk, env.readFile fl.tlsPem = .ok buf →
            env.pemDecode buf = some blk →
            assertionFromFlagsUnchecked env fl
              = subjectPipeline env fl.tlsScheme (claimsFromFlags env fl)
                  (checksumOfFlag fl.checksum) fl.tlsPem blk))
    ∧ (fl.tlsPem = "" → fl.tlsDer ≠ "" →
       (∀ e, env.readFile fl.tlsDer = .error e →
          assertionFromFlagsUnchecked env fl
            = .error ("reading subject " ++ fl.tlsDer ++ ": " ++ e))
       ∧ (∀ buf, env.readFile fl.tlsDer = .ok buf →
          assertionFromFlagsUnchecked env fl
            = subjectPipeline env fl.tlsScheme (claimsFromFlags env fl)
                (checksumOfFlag fl.checksum) fl.tlsDer buf)) := by
  have hnot : ¬ fl.inFile ≠ "" := by simp [h0]
  refine ⟨?_, ?_, ?_⟩
  · intro hcond
    simp only [assertionFromFlagsUnchecked, hnot, if_false, if_pos hcond]
  · intro hp hd
    have hcond : ¬ ((fl.tlsPem = "" ∧ fl.tlsDer = "")
        ∨ (fl.tlsPem ≠ "" ∧ fl.tlsDer ≠ "")) := by
      simp [hp, hd]
    refine ⟨?_, ?_, ?_⟩
    · intro e he
      simp only [assertionFromFlagsUnchecked, hnot, if_false, if_neg hcond,
        if_pos hp, he]
    · intro buf hbuf hpem
      simp only [assertionFromFlagsUnchecked, hnot, if_false, if_neg hcond,
        if_pos hp, hbuf, hpem]
    · intro buf blk hbuf hpem
      simp only [assertionFromFlagsUnchecked, hnot, if_false, if_neg hcond,
        if_pos hp, hbuf, hpem, subjectPipeline, checksumOfFlag,
        claimsFromFlags]
  · intro hp hd
    have hcond : ¬ ((fl.tlsPem = "" ∧ fl.tlsDer = "")
        ∨ (fl.tlsPem ≠ "" ∧ fl.tlsDer ≠ "")) := by
      simp [hp, hd]
    have hnp : ¬ fl.tlsPem ≠ "" := by simp [hp]
    refine ⟨?_, ?_⟩
    · intro e he
      simp only [assertionFromFlagsUnchecked, hnot, if_false, if_neg hcond,
        if_neg hnp, he]
    · intro buf hbuf
      simp only [assertionFromFlagsUnchecked, hnot, if_false, if_neg hcond,
        if_neg hnp, hbuf, subjectPipeline, checksumOfFlag, claimsFromFlags]

theorem subjectPipeline_scheme (env : FlagEnv) (tlsScheme : String)
    (cs : Claims) (chk : Option (List Byte)) (path : String)
    (buf : List Byte) (pub : PubKey)
    (hpub : env.parsePKIX buf = .ok pub)
    (hsubj : ∀ s, (env.newTLSSubject s pub).isOk = true) :
    (tlsScheme = "" →
       ((subjectPipeline env tlsScheme cs chk path buf).isOk = true
         ↔ (env.schemesFor pub).length = 1))
    ∧ (tlsScheme ≠ "" →
       ((subjectPipeline env tlsScheme cs chk path buf).isOk = true
         ↔ env.schemeFromString tlsScheme ≠ 0))
    ∧ (∀ subj, tlsScheme ≠ "" →
        env.schemeFromString tlsScheme ≠ 0 →
        env.newTLSSubject (env.schemeFromString tlsScheme) pub = .ok subj →
        subjectPipeline env tlsScheme cs chk path buf
          = .ok { assertion := { claims := cs, subject := subj }
                  checksum := chk }) := by
  refine ⟨?_, ?_, ?_⟩
  · intro hts
    have hnts : ¬ tlsScheme ≠ "" := by simp [hts]
    simp only [subjectPipeline, hpub, if_neg hnts]
    by_cases h0 : (env.schemesFor pub).length = 0
    · simp only [h0, if_true, if_pos]
      constructor
      · intro h
        simp [Except.isOk, Except.toBool] at h
      · intro h
        omega
    · by_cases h2 : 2 ≤ (env.schemesFor pub).length
      · simp only [h0, if_false, if_pos h2]
        constructor
        · intro h
          simp [Except.isOk, Except.toBool] at h
        · intro h
          omega
      · simp only [h0, if_false, if_neg h2]
        have h1 : (env.schemesFor pub).length = 1 := by omega
        cases hns : env.newTLSSubject ((env.schemesFor pub).headD 0) pub with
        | error e =>
          have := hsubj ((env.schemesFor pub).headD 0)
          rw [hns] at this
          simp [Except.isOk, Except.toBool] at this
        | ok subj =>
          simp only [hns]
          simp [Except.isOk, Except.toBool, h1]
  · intro hts
    simp only [subjectPipeline, hpub, if_pos hts]
    by_cases hz : env.schemeFromString tlsScheme = 0
    · rw [if_pos hz]
      constructor
      · intro h
        simp [Except.isOk, Except.toBool] at h
      · intro h
        exact absurd hz h
    · simp only [hz, if_false]
      cases hns : env.newTLSSubject (env.schemeFromString tlsScheme) pub with
      | error e =>
        have := hsubj (env.schemeFromString tlsScheme)
        rw [hns] at this
        simp [Except.isOk, Except.toBool] at this
      | ok subj =>
        simp only [hns]
        simp [Except.isOk, Except.toBool, hz]
  · intro subj hts hz hok
    simp only [subjectPipeline, hpub, if_pos hts, if_neg hz, hok]

theorem indexEntryAt_shift (b : List Byte) (i : Nat) :
    indexEntryAt (List.drop 48 b) i = indexEntryAt b (i + 1) := by
  unfold indexEntryAt
  rw [List.drop_drop, List.drop_drop, List.drop_drop]
  have h1 : 48 + 48 * i = 48 * (i + 1) := by ring
  have h2 : 48 + (48 * i + 32) = 48 * (i + 1) + 32 := by ring
  have h3 : 48 + (48 * i + 40) = 48 * (i + 1) + 40 := by ring
  rw [h1, h2, h3]

theorem parseIndexLoop_short (b : List Byte) (hne : b ≠ [])
    (hlt : b.length < 48) : parseIndexLoop b = .error "truncated" := by
  unfold parseIndexLoop
  have hemp : b.isEmpty = false := by
    simp [List.isEmpty_iff, hne]
  simp only [hemp, Bool.false_eq_true, dite_false, List.length_drop]
  split_ifs with h32 h64a h64b
  · omega
  · rfl
  · rfl
  · rfl

theorem parseIndexLoop_step (b : List Byte) (h48 : 48 ≤ b.length) :
    parseIndexLoop b =
      match parseIndexLoop (b.drop 48) with
      | .error e => .error e
      | .ok rest =>
        .ok ((b.take 32, be64 ((b.drop 32).take 8),
          be64 ((b.drop 40).take 8)) :: rest) := by
  have hne : b ≠ [] := by
    intro h
    rw [h] at h48
    simp at h48
  have hemp : b.isEmpty = false := by
    simp [List.isEmpty_iff, hne]
  rw [parseIndexLoop]
  simp only [hemp, Bool.false_eq_true, dite_false, List.length_drop]
  have h32 : 32 ≤ b.length := by omega
  have h64a : 8 ≤ b.length - 32 := by omega
  have h64b : 8 ≤ b.length - 32 - 8 := by omega
  simp only [h32, dite_true, h64a, h64b, List.drop_drop]

/-- Claim C7: inspect index succeeds exactly when the input length is a
multiple of 48, printing length/48 entries in input order, each decoded as
a 32-byte key, a big-endian u64 seqno and a big-endian u64 offset; a
trailing fragment shorter than 48 bytes makes it fail with a truncation
error. -/
theorem inspect_index_spec (b : List Byte) :
    ((parseIndexLoop b).isOk = true ↔ b.length % 48 = 0)
    ∧ (b.length % 48 ≠ 0 → parseIndexLoop b = .error "truncated")
    ∧ (∀ l, parseIndexLoop b = .ok l →
        l.length = b.length / 48
        ∧ ∀ i (hi : i < l.length), l[i] = indexEntryAt b i) := by
  suffices H : ∀ (n : Nat) (b : List Byte), b.length ≤ n →
      ((parseIndexLoop b).isOk = true ↔ b.length % 48 = 0)
      ∧ (b.length % 48 ≠ 0 → parseIndexLoop b = .error "truncated")
      ∧ (∀ l, parseIndexLoop b = .ok l →
          l.length = b.length / 48
          ∧ ∀ i (hi : i < l.length), l[i] = indexEntryAt b i) by
    exact H b.length b le_rfl
  have hnil : parseIndexLoop [] = .ok [] := by
    simp [parseIndexLoop]
  intro n
  induction n with
  | zero =>
    intro b hb
    have hb0 : b = [] := List.length_eq_zero.mp (Nat.le_zero.mp hb)
    subst hb0
    refine ⟨by rw [hnil]; simp [Except.isOk, Except.toBool], by simp, ?_⟩
    intro l hl
    rw [hnil] at hl
    have : l = [] := ((Except.ok.injEq _ _).mp hl).symm
    subst this
    simp
  | succ n ih =>
    intro b hb
    by_cases hne : b = []
    · subst hne
      refine ⟨by rw [hnil]; simp [Except.isOk, Except.toBool], by simp, ?_⟩
      intro l hl
      rw [hnil] at hl
      have : l = [] := ((Except.ok.injEq _ _).mp hl).symm
      subst this
      simp
    · by_cases h48 : 48 ≤ b.length
      · have hstep := parseIndexLoop_step b h48
        have hihlen : (b.drop 48).length ≤ n := by
          simp only [List.length_drop]
          omega
        obtain ⟨ih1, ih2, ih3⟩ := ih (b.drop 48) hihlen
        simp only [List.length_drop] at ih1 ih2
        cases hrec : parseIndexLoop (b.drop 48) with
        | error e =>
          have hmod : ¬ (b.length - 48) % 48 = 0 := by
            intro hc
            have := ih1.mpr hc
            rw [hrec] at this
            simp [Except.isOk, Except.toBool] at this
          have htr : parseIndexLoop (b.drop 48) = .error "truncated" :=
            ih2 hmod
          rw [hrec] at htr
          have he : e = "truncated" := (Except.error.injEq _ _).mp htr
          subst he
          have hres : parseIndexLoop b = .error "truncated" := by
            rw [hstep, hrec]
          refine ⟨?_, fun _ => hres, ?_⟩
          · rw [hres]
            simp only [Except.isOk, Except.toBool, Bool.false_eq_true, false_iff]
            omega
          · intro l hl
            rw [hres] at hl
            exact absurd hl (by simp)
        | ok rest =>
          have hmod : (b.length - 48) % 48 = 0 := by
            apply ih1.mp
            rw [hrec]
            rfl
          obtain ⟨hlen, hget⟩ := ih3 rest hrec
          simp only [List.length_drop] at hlen
          have hres : parseIndexLoop b =
              .ok ((b.take 32, be64 ((b.drop 32).take 8),
                be64 ((b.drop 40).take 8)) :: rest) := by
            rw [hstep, hrec]
          refine ⟨?_, ?_, ?_⟩
          · rw [hres]
            simp only [Except.isOk, Except.toBool, true_iff]
            omega
          · intro hc
            omega
          · intro l hl
            rw [hres] at hl
            have hl2 : l = (b.take 32, be64 ((b.drop 32).take 8),
                be64 ((b.drop 40).take 8)) :: rest :=
              ((Except.ok.injEq _ _).mp hl).symm
            subst hl2
            constructor
            · simp only [List.length_cons, hlen]
              omega
            · intro i hi
              match i with
              | 0 =>
                simp [indexEntryAt]
              | i + 1 =>
                simp only [List.getElem_cons_succ]
                rw [← indexEntryAt_shift]
                exact hget i (by simpa using hi)
      · have hne48 : b.length < 48 := by omega
        have herr := parseIndexLoop_short b hne hne48
        have hmod : ¬ b.length % 48 = 0 := by
          have : b.length ≠ 0 := fun h0 => hne (List.length_eq_zero.mp h0)
          omega
        refine ⟨?_, fun _ => herr, ?_⟩
        · rw [herr]
          simp only [Except.isOk, Except.toBool, Bool.false_eq_true, false_iff]
          omega
        · intro l hl
          rw [herr] at hl
          exact absurd hl (by simp)

end Mtc

namespace Mtc

/-- Claim C1 counter-evidence (code bug): invoking an assertion-building
command with an invalid hexadecimal --checksum value does not make the
flag-parsing step fail: the hex error built at main.go:135 is discarded
(its return is missing), and assertionFromFlagsUnchecked proceeds, here
returning the queued assertion with an empty checksum. -/
theorem checksum_bad_hex_silently_ignored :
    assertionFromFlagsUnchecked testEnv
        { noFlags with inFile := "a.bin", checksum := "zz" }
      = .ok { assertion := testAssertion, checksum := some [] } := by
  rfl

/-- Claim C2: without --in-file, assertionFromFlagsUnchecked errors when
neither or both of --tls-pem and --tls-der are set, and otherwise reads
the subject public key from the single flag that is set, PEM-decoding the
file first when --tls-pem is used. -/
theorem subject_source_selection (env : FlagEnv) (fl : AssertionFlags)
    (h0 : fl.inFile = "") :
    (((fl.tlsPem = "" ∧ fl.tlsDer = "") ∨ (fl.tlsPem ≠ "" ∧ fl.tlsDer ≠ "")) →
       assertionFromFlagsUnchecked env fl
         = .error "Expect either tls-pem or tls-der flag")
    ∧ (fl.tlsPem ≠ "" → fl.tlsDer = "" →
       (∀ e, env.readFile fl.tlsPem = .error e →
          assertionFromFlagsUnchecked env fl
            = .error ("reading subject " ++ fl.tlsPem ++ ": " ++ e))
       ∧ (∀ buf, env.readFile fl.tlsPem = .ok buf →
            env.pemDecode buf = none →
            assertionFromFlagsUnchecked env fl
              = .error ("reading subject " ++ fl.tlsPem ++
                  ": failed to parse PEM block"))
       ∧ (∀ buf blk, env.readFile fl.tlsPem = .ok buf →
            env.pemDecode buf = some blk →
            assertionFromFlagsUnchecked env fl
              = subjectPipeline env fl.tlsScheme (claimsFromFlags env fl)
                  (checksumOfFlag fl.checksum) fl.tlsPem blk))
    ∧ (fl.tlsPem = "" → fl.tlsDer ≠ "" →
       (∀ e, env.readFile fl.tlsDer = .error e →
          assertionFromFlagsUnchecked env fl
            = .error ("reading subject " ++ fl.tlsDer ++ ": " ++ e))
       ∧ (∀ buf, env.readFile fl.tlsDer = .ok buf →
          assertionFromFlagsUnchecked env fl
            = subjectPipeline env fl.tlsScheme (claimsFromFlags env fl)
                (checksumOfFlag fl.checksum) fl.tlsDer buf)) :=
  aFFU_route env fl h0

/-- Concrete instance of subject_source_selection: with neither subject
flag, the command errors out as stated. -/
theorem subject_source_selection_witness :
    assertionFromFlagsUnchecked testEnv noFlags
      = .error "Expect either tls-pem or tls-der flag" :=
  (subject_source_selection testEnv noFlags rfl).1 (Or.inl ⟨rfl, rfl⟩)

/-- Claim C3: for a parsed subject public key, building the assertion
without --tls-scheme succeeds exactly when the key admits exactly one
signature scheme; with --tls-scheme, the named scheme is used and the
command fails exactly when the scheme name is unknown (mapped to 0). -/
theorem scheme_selection (env : FlagEnv) (fl : AssertionFlags)
    (buf : List Byte) (pub : PubKey)
    (h0 : fl.inFile = "")
    (hroute :
      (fl.tlsPem = "" ∧ fl.tlsDer ≠ "" ∧ env.readFile fl.tlsDer = .ok buf)
      ∨ (fl.tlsPem ≠ "" ∧ fl.tlsDer = "" ∧
          ∃ raw, env.readFile fl.tlsPem = .ok raw ∧
            env.pemDecode raw = some buf))
    (hpub : env.parsePKIX buf = .ok pub)
    (hsubj : ∀ s, (env.newTLSSubject s pub).isOk = true) :
    (fl.tlsScheme = "" →
       ((assertionFromFlagsUnchecked env fl).isOk = true
         ↔ (env.schemesFor pub).length = 1))
    ∧ (fl.tlsScheme ≠ "" →
       ((assertionFromFlagsUnchecked env fl).isOk = true
         ↔ env.schemeFromString fl.tlsScheme ≠ 0))
    ∧ (∀ subj, fl.tlsScheme ≠ "" →
        env.schemeFromString fl.tlsScheme ≠ 0 →
        env.newTLSSubject (env.schemeFromString fl.tlsScheme) pub = .ok subj →
        assertionFromFlagsUnchecked env fl
          = .ok { assertion := { claims := claimsFromFlags env fl
                                 subject := subj }
                  checksum := checksumOfFlag fl.checksum }) := by
  have hr : assertionFromFlagsUnchecked env fl
      = subjectPipeline env fl.tlsScheme (claimsFromFlags env fl)
          (checksumOfFlag fl.checksum)
          (if fl.tlsPem ≠ "" then fl.tlsPem else fl.tlsDer) buf := by
    rcases hroute with ⟨hp, hd, hrf⟩ | ⟨hp, hd, raw, hrf, hpem⟩
    · have h := ((aFFU_route env fl h0).2.2 hp hd).2 buf hrf
      simpa [hp] using h
    · have h := ((aFFU_route env fl h0).2.1 hp hd).2.2 raw buf hrf hpem
      simpa [hp] using h
  rw [hr]
  exact subjectPipeline_scheme env fl.tlsScheme (claimsFromFlags env fl)
    (checksumOfFlag fl.checksum)
    (if fl.tlsPem ≠ "" then fl.tlsPem else fl.tlsDer) buf pub hpub hsubj

/-- Concrete instance of scheme_selection: a key admitting exactly one
scheme builds successfully without --tls-scheme. -/
theorem scheme_selection_witness :
    (assertionFromFlagsUnchecked testEnv
        { noFlags with tlsDer := "k.der" }).isOk = true := by
  have h := scheme_selection testEnv { noFlags with tlsDer := "k.der" }
    [0, 1, 2] 7 rfl (Or.inl ⟨rfl, by decide, rfl⟩) rfl (fun s => rfl)
  exact (h.1 rfl).mpr rfl

/-- Claim C4: with --in-file set, assertionFromFlagsUnchecked errors when
any of the seven assertion flags is also set, and otherwise decodes the
queued assertion from the file, keeping the --checksum value. -/
theorem in_file_exclusive (env : FlagEnv) (fl : AssertionFlags)
    (h : fl.inFile ≠ "") :
    ((fl.dnsSet = true ∨ fl.dnsWildcardSet = true ∨ fl.ensSet = true ∨
        fl.ip4Set = true ∨ fl.ip6Set = true ∨ fl.tlsDerSet = true ∨
        fl.tlsPemSet = true) →
      (assertionFromFlagsUnchecked env fl).isOk = false)
    ∧ (fl.dnsSet = false → fl.dnsWildcardSet = false → fl.ensSet = false →
       fl.ip4Set = false → fl.ip6Set = false → fl.tlsDerSet = false →
       fl.tlsPemSet = false →
       ∀ buf a, env.readFile fl.inFile = .ok buf →
         env.unmarshalAssertion buf = .ok a →
         assertionFromFlagsUnchecked env fl
           = .ok { assertion := a, checksum := checksumOfFlag fl.checksum }) := by
  constructor
  · intro hset
    simp only [assertionFromFlagsUnchecked, if_pos h]
    cases hrf : env.readFile fl.inFile with
    | error e => simp [Except.isOk, Except.toBool]
    | ok buf =>
      cases hfind : [("dns", fl.dnsSet), ("dns-wildcard", fl.dnsWildcardSet),
          ("ens", fl.ensSet), ("ip4", fl.ip4Set), ("ip6", fl.ip6Set),
          ("tls-der", fl.tlsDerSet), ("tls-pem", fl.tlsPemSet)].find?
            (fun p => p.2) with
      | none =>
        exfalso
        rw [List.find?_eq_none] at hfind
        rcases hset with hs | hs | hs | hs | hs | hs | hs
        · exact absurd hs (by simpa using hfind ("dns", fl.dnsSet) (by simp))
        · exact absurd hs
            (by simpa using hfind ("dns-wildcard", fl.dnsWildcardSet) (by simp))
        · exact absurd hs (by simpa using hfind ("ens", fl.ensSet) (by simp))
        · exact absurd hs (by simpa using hfind ("ip4", fl.ip4Set) (by simp))
        · exact absurd hs (by simpa using hfind ("ip6", fl.ip6Set) (by simp))
        · exact absurd hs
            (by simpa using hfind ("tls-der", fl.tlsDerSet) (by simp))
        · exact absurd hs
            (by simpa using hfind ("tls-pem", fl.tlsPemSet) (by simp))
      | some p => simp [hfind, Except.isOk, Except.toBool]
  · intro h1 h2 h3 h4 h5 h6 h7 buf a hrf hun
    have hfind : [("dns", fl.dnsSet), ("dns-wildcard", fl.dnsWildcardSet),
        ("ens", fl.ensSet), ("ip4", fl.ip4Set), ("ip6", fl.ip6Set),
        ("tls-der", fl.tlsDerSet), ("tls-pem", fl.tlsPemSet)].find?
          (fun p => p.2) = none := by
      simp [List.find?, h1, h2, h3, h4, h5, h6, h7]
    simp only [assertionFromFlagsUnchecked, if_pos h, hrf, hfind, hun,
      checksumOfFlag]

/-- Concrete instance of in_file_exclusive: a set --dns flag together with
--in-file is rejected, and --in-file alone decodes the file. -/
theorem in_file_exclusive_witness :
    (assertionFromFlagsUnchecked testEnv
        { noFlags with inFile := "a.bin", dnsSet := true }).isOk = false
    ∧ assertionFromFlagsUnchecked testEnv { noFlags with inFile := "a.bin" }
        = .ok { assertion := testAssertion, checksum := none } := by
  constructor
  · exact (in_file_exclusive testEnv
      { noFlags with inFile := "a.bin", dnsSet := true } (by decide)).1
      (Or.inl rfl)
  · have h := (in_file_exclusive testEnv { noFlags with inFile := "a.bin" }
      (by decide)).2 rfl rfl rfl rfl rfl rfl rfl [0, 1, 2] testAssertion
      rfl rfl
    simpa [checksumOfFlag] using h

end Mtc

namespace Mtc

/-- Claim C5: handleCaQueue yields the assertion exactly debug-repeat times
(the flag defaults to 1); with --debug-vary, the i-th copy has its checksum
cleared and the extra DNS claim "i.example.com" appended, making the copies
pairwise distinct. -/
theorem ca_queue_yields (qa : QueuedAssertion) (r : Nat) :
    (∀ v, (caQueueYields qa r v).length = r)
    ∧ (caQueueYields qa debugRepeatDefault false).length = 1
    ∧ (∀ i (hi : i < (caQueueYields qa r false).length),
        (caQueueYields qa r false)[i] = qa)
    ∧ (∀ i (hi : i < (caQueueYields qa r true).length),
        (caQueueYields qa r true)[i] = variedCopy qa i)
    ∧ (caQueueYields qa r true).Nodup := by
  refine ⟨?_, ?_, ?_, ?_, ?_⟩
  · intro v
    simp [caQueueYields]
  · simp [caQueueYields, debugRepeatDefault]
  · intro i hi
    simp [caQueueYields]
  · intro i hi
    simp [caQueueYields]
  · have hinj : Function.Injective (fun i => variedCopy qa i) := by
      intro i j hij
      have hd := congrArg (fun q => q.assertion.claims.dns) hij
      simp only [variedCopy] at hd
      have h2 := List.append_cancel_left hd
      injection h2 with h3 h4
      exact reprSuffix_inj i j _ h3
    have hmap : caQueueYields qa r true
        = (List.range r).map (fun i => variedCopy qa i) := by
      simp [caQueueYields]
    rw [hmap]
    exact (List.nodup_range r).map hinj

/-- Concrete instance of ca_queue_yields at repeat 3 with --debug-vary. -/
theorem ca_queue_yields_witness :
    (caQueueYields testQueued 3 false).length = 3
    ∧ (caQueueYields testQueued 3 true).get ⟨1, by decide⟩
        = variedCopy testQueued 1
    ∧ (caQueueYields testQueued 3 true).Nodup := by
  have h := ca_queue_yields testQueued 3
  exact ⟨h.1 false, h.2.2.2.1 1 (by decide), h.2.2.2.2⟩

/-- Claim C6: for a decoded and verified window with batch number n and
validity window size w, inspect signed-validity-window prints exactly w
tree heads, the head at window index k being the 32-byte slice starting at
32k, labeled with batch number n - (w-1) + k; so the last head is labeled
n. -/
theorem inspect_window_labels (n w : Nat) (th : List Byte) (hw : 0 < w) :
    (inspectWindowHeads n w th).length = w
    ∧ (∀ k (hk : k < (inspectWindowHeads n w th).length),
        (inspectWindowHeads n w th)[k]
          = ((n : Int) - ((w : Int) - 1) + (k : Int),
             (th.drop (HashLen * k)).take HashLen))
    ∧ (∀ hl : w - 1 < (inspectWindowHeads n w th).length,
        ((inspectWindowHeads n w th).get ⟨w - 1, hl⟩).1 = (n : Int)) := by
  have hget : ∀ k (hk : k < (inspectWindowHeads n w th).length),
      (inspectWindowHeads n w th)[k]
        = ((n : Int) - ((w : Int) - 1) + (k : Int),
           (th.drop (HashLen * k)).take HashLen) := by
    intro k hk
    simp only [inspectWindowHeads, List.getElem_map, List.getElem_range]
    have : (n : Int) + (k : Int) - (w : Int) + 1
        = (n : Int) - ((w : Int) - 1) + (k : Int) := by ring
    rw [this]
  refine ⟨by simp [inspectWindowHeads], hget, ?_⟩
  intro hl
  have h := congrArg Prod.fst (hget (w - 1) hl)
  rw [List.get_eq_getElem]
  rw [h]
  have : ((w - 1 : Nat) : Int) = (w : Int) - 1 := by omega
  rw [this]
  ring

/-- Concrete instance of inspect_window_labels at n = 5, w = 3. -/
theorem inspect_window_labels_witness :
    (inspectWindowHeads 5 3 (List.range 96)).length = 3
    ∧ ((inspectWindowHeads 5 3 (List.range 96)).get ⟨2, by decide⟩).1
        = (5 : Int) := by
  have h := inspect_window_labels 5 3 (List.range 96) (by decide)
  exact ⟨h.1, h.2.2 (by decide)⟩

/-- Concrete instance of inspect_index_spec: a 47-byte input is rejected as
truncated; a 48-byte input decodes. -/
theorem inspect_index_spec_witness :
    parseIndexLoop (List.range 47) = .error "truncated"
    ∧ (parseIndexLoop (List.range 48)).isOk = true := by
  refine ⟨(inspect_index_spec (List.range 47)).2.1 (by decide),
    (inspect_index_spec (List.range 48)).1.mpr (by decide)⟩

/-- Claim C8: inspect cert on a Merkle-tree-proof certificate succeeds
without --ca-params (no recomputed root printed); with CA parameters it
fails when the trust anchor issuer id differs from the parameters issuer
id, and otherwise prints the root recomputed from the index, the path and
the abridged assertion for the anchor batch. -/
theorem inspect_cert_params {α : Type} (abridge : Assertion → α)
    (computeRoot : CAParams → Nat → Nat → List Byte → α →
      Except String (List Byte))
    (c : BikeshedCertificate) :
    (handleInspectCert abridge computeRoot none c
       = .ok { abridgedAssertion := abridge c.assertion
               anchorIssuerId := c.proof.anchor.issuerId
               anchorBatchNumber := c.proof.anchor.batchNumber
               leafIndex := c.proof.index
               path := c.proof.path
               recomputedRoot := none })
    ∧ (∀ p, c.proof.anchor.issuerId ≠ p.issuerId →
        (handleInspectCert abridge computeRoot (some (.ok p)) c).isOk
          = false)
    ∧ (∀ p root, c.proof.anchor.issuerId = p.issuerId →
        computeRoot p c.proof.anchor.batchNumber c.proof.index c.proof.path
            (abridge c.assertion) = .ok root →
        handleInspectCert abridge computeRoot (some (.ok p)) c
          = .ok { abridgedAssertion := abridge c.assertion
                  anchorIssuerId := c.proof.anchor.issuerId
                  anchorBatchNumber := c.proof.anchor.batchNumber
                  leafIndex := c.proof.index
                  path := c.proof.path
                  recomputedRoot := some root }) := by
  refine ⟨rfl, ?_, ?_⟩
  · intro p hne
    simp [handleInspectCert, if_pos hne, Except.isOk, Except.toBool]
  · intro p root heq hroot
    have hne : ¬ c.proof.anchor.issuerId ≠ p.issuerId := by simp [heq]
    simp [handleInspectCert, if_neg hne, hroot]

/-- Concrete instance of inspect_cert_params on the test certificate. -/
theorem inspect_cert_params_witness :
    (handleInspectCert (fun _ => (0 : Nat))
        (fun _ _ _ _ _ => .ok [1]) (some (.ok { issuerId := "other" }))
        testCert).isOk = false
    ∧ handleInspectCert (fun _ => (0 : Nat))
        (fun _ _ _ _ _ => .ok [1]) (some (.ok { issuerId := "acme" }))
        testCert
      = .ok { abridgedAssertion := 0
              anchorIssuerId := "acme"
              anchorBatchNumber := 5
              leafIndex := 2
              path := List.replicate 64 7
              recomputedRoot := some [1] } := by
  have h := inspect_cert_params (fun _ => (0 : Nat))
    (fun _ _ _ _ _ => .ok [1]) testCert
  exact ⟨h.2.1 { issuerId := "other" } (by decide),
    h.2.2 { issuerId := "acme" } [1] rfl rfl⟩

/-- Claim C9: the process exits with status 0 exactly when the selected
action returned no error and 1 otherwise; the error message is printed
except for the wrong-argument-count error errArgs. -/
theorem main_exit_codes :
    (∀ res, (mainExit res).1 = 0 ↔ res = none)
    ∧ (∀ res, (mainExit res).1 = 1 ↔ res ≠ none)
    ∧ (mainExit none).2 = none
    ∧ (mainExit (some CliError.errArgs)).2 = none
    ∧ (∀ msg, (mainExit (some (CliError.other msg))).2
        = some ("error: " ++ msg ++ "\n")) := by
  refine ⟨?_, ?_, rfl, rfl, fun msg => rfl⟩
  · intro res
    cases res with
    | none => simp [mainExit]
    | some e => cases e <;> simp [mainExit]
  · intro res
    cases res with
    | none => simp [mainExit]
    | some e => cases e <;> simp [mainExit]

end Mtc

namespace Server

/-- Claim C10: CreateAssertion responds 415 to a present non-JSON
Content-Type, 413 when the body exceeds the 1048576-byte limit, 400 for an
empty body, malformed JSON, an unknown field, or more than one JSON value;
only a single well-formed object reaches assertion creation. -/
theorem create_assertion_statuses (ct : String) (dec : DecodeOutcome)
    (secondIsEOF : Bool) :
    ((ct ≠ "" ∧ mediaTypeOf ct ≠ "application/json") →
       (createAssertion ct dec secondIsEOF).status = some 415)
    ∧ ((ct = "" ∨ mediaTypeOf ct = "application/json") →
       ((dec = .tooLarge →
           (createAssertion ct dec secondIsEOF).status = some 413)
        ∧ (dec = .emptyBody →
           (createAssertion ct dec secondIsEOF).status = some 400)
        ∧ (∀ off, dec = .badJSON off →
           (createAssertion ct dec secondIsEOF).status = some 400)
        ∧ (dec = .unexpectedEOF →
           (createAssertion ct dec secondIsEOF).status = some 400)
        ∧ (∀ f off, dec = .typeError f off →
           (createAssertion ct dec secondIsEOF).status = some 400)
        ∧ (∀ f, dec = .unknownField f →
           (createAssertion ct dec secondIsEOF).status = some 400)
        ∧ (∀ p, dec = .success p → secondIsEOF = false →
           (createAssertion ct dec secondIsEOF).status = some 400)
        ∧ (∀ p, dec = .success p → secondIsEOF = true →
           createAssertion ct dec secondIsEOF = .proceed p))) := by
  constructor
  · intro hct
    simp [createAssertion, if_pos hct, HandlerResult.status]
  · intro hok
    have hnot : ¬ (ct ≠ "" ∧ mediaTypeOf ct ≠ "application/json") := by
      rcases hok with h | h <;> simp [h]
    refine ⟨?_, ?_, ?_, ?_, ?_, ?_, ?_, ?_⟩
    · intro hd
      subst hd
      simp [createAssertion, if_neg hnot, HandlerResult.status]
    · intro hd
      subst hd
      simp [createAssertion, if_neg hnot, HandlerResult.status]
    · intro off hd
      subst hd
      simp [createAssertion, if_neg hnot, HandlerResult.status]
    · intro hd
      subst hd
      simp [createAssertion, if_neg hnot, HandlerResult.status]
    · intro f off hd
      subst hd
      simp [createAssertion, if_neg hnot, HandlerResult.status]
    · intro f hd
      subst hd
      simp [createAssertion, if_neg hnot, HandlerResult.status]
    · intro p hd hb
      subst hd
      subst hb
      simp [createAssertion, if_neg hnot, HandlerResult.status]
    · intro p hd hb
      subst hd
      subst hb
      simp [createAssertion, if_neg hnot]

/-- Concrete instance of create_assertion_statuses: a plain-text request is
rejected 415, an oversized JSON request 413, and a single well-formed
object with a charset parameter in the Content-Type proceeds. -/
theorem create_assertion_statuses_witness :
    (createAssertion "text/plain" DecodeOutcome.emptyBody true).status
        = some 415
    ∧ (createAssertion "application/json; charset=utf-8"
        DecodeOutcome.tooLarge true).status = some 413
    ∧ createAssertion "" (DecodeOutcome.success { ens := "a.eth", pem := "k" })
        true
      = HandlerResult.proceed { ens := "a.eth", pem := "k" } := by
  refine ⟨?_, ?_, ?_⟩
  · exact (create_assertion_statuses "text/plain" DecodeOutcome.emptyBody
      true).1 ⟨by decide, by decide⟩
  · exact ((create_assertion_statuses "application/json; charset=utf-8"
      DecodeOutcome.tooLarge true).2 (Or.inr (by decide))).1 rfl
  · exact ((create_assertion_statuses ""
      (DecodeOutcome.success { ens := "a.eth", pem := "k" }) true).2
      (Or.inl rfl)).2.2.2.2.2.2.2 { ens := "a.eth", pem := "k" } rfl rfl

end Server
